import Mathlib

/-!
Verification development for the chat-app agent pipeline.

This file gives a shallow embedding, in Lean, of the core of the repository:
the RAG document service (rag.service.ts), the LangGraph-based agent
orchestrator (langchain.service.ts) and the turn coordinator
(ai-agent.service.ts).  External collaborators (OpenAI, Pinecone, the message
store, speech services) are modelled as environments of Except-valued
functions, so that a throwing collaborator is an explicit error value and a
try/catch in the source is an explicit match on that value.  Trace lists
record the observable side effects (Pinecone namespaces queried, messages
written) that the specification talks about.
-/

deriving instance DecidableEq for Except

namespace ChatApp

/-- Byte buffers are abstracted as lists of bytes. -/
abbrev Buffer := List Nat

/-- Embedding vectors; the numeric element type is irrelevant to the claims. -/
abbrev Vec := List Int

/-- Combinator mirroring a JS try/catch around an Except-valued computation:
the handler receives the thrown error. -/
def tryCatchE {ε α : Type} (body : Except ε α) (handler : ε → Except ε α) : Except ε α :=
  match body with
  | .ok a => .ok a
  | .error e => handler e

/-- Whitespace test mirroring the JS whitespace class used by trim and by
the chunker normalization, over the common ASCII whitespace characters. -/
def jsWs (c : Char) : Bool :=
  c = ' ' || c = '\t' || c = '\n' || c = '\r' || c = '\x0b' || c = '\x0c'

/-- Character-level JS trim: strip whitespace from both ends. -/
def trimWs (l : List Char) : List Char :=
  ((l.dropWhile jsWs).reverse.dropWhile jsWs).reverse

/-- Character-level JS String.split on the dot character, as used to read a
file extension; splitting an empty name yields one empty component, like in
JS. -/
def splitDots : List Char → List (List Char)
  | [] => [[]]
  | c :: cs =>
    if c = '.' then [] :: splitDots cs
    else
      match splitDots cs with
      | [] => [[c]]
      | w :: ws => (c :: w) :: ws

/-! ## RAG service (src/rag/rag.service.ts) -/

/-- Pinecone match metadata; every field can be absent, mirroring
`match.metadata?.field` accesses. -/
structure RagMatchMeta where
  text : Option String
  fileName : Option String
  chunkIndex : Option Nat
  userId : Option Nat
deriving DecidableEq

/-- One Pinecone nearest-neighbor match. -/
structure RagMatch where
  id : String
  score : Option Int
  metadata : Option RagMatchMeta
deriving DecidableEq

/-- A retrieved document as built in generateRAGResponse step 3. -/
structure RagDoc where
  text : String
  fileName : String
  score : Option Int
deriving DecidableEq

/-- One source entry of the RAG answer (step 6 of generateRAGResponse). -/
structure RagSource where
  source : Nat
  fileName : String
  score : Option Int
  text : String
deriving DecidableEq

/-- The value returned by generateRAGResponse.  The zero-match branch of the
source returns no namespace field, hence the Option; the field is named
nspace because namespace is a Lean keyword. -/
structure RagResponse where
  success : Bool
  query : String
  answer : String
  sources : List RagSource
  totalSources : Nat
  nspace : Option String
deriving DecidableEq

/-- Environment of external collaborators used by the RAG service: the
configured Pinecone index name (empty string models an unset variable, which
is falsy in JS), the embedding call, the Pinecone query and the chat
completion.  Each call may throw, modelled as an error value. -/
structure RagEnv where
  indexName : String
  embed : String → Except String Vec
  pineconeQuery : String → Vec → Nat → Except String (List RagMatch)
  chatComplete : String → String → Except String (Option String)

/-- The no-match answer of generateRAGResponse, also used verbatim by the
queryDocuments tool as its fallback result. -/
def ragNotFoundAnswer : String :=
  "I couldn\x27t find any relevant information in your documents to answer this question."

/-- Error surfaced by the catch-all of generateRAGResponse. -/
def ragFailMsg : String := "Failed to generate response. Please try again."

/-- System prompt of generateRAGResponse step 5. -/
def ragSystemPrompt : String :=
  "You are a helpful assistant that answers questions based on the provided documents. Use only the information from the documents to answer the user\x27s question. If the documents don\x27t contain enough information to answer the question, say so clearly. Always cite which source(s) you used for your answer."

/-- Embedding of RagService.generateRAGResponse.  Returns the result together
with the list of Pinecone namespaces actually queried (the observable the
spec claims are about).  Mirrors the source step by step: empty-query guard
(a query is rejected exactly when it is empty or trims to empty, i.e. all
whitespace), 
index-name guard, namespace defaulting to user-{id}, embed, query, the
zero-match early return, context assembly, chat completion, source list. -/
def generateRAGResponse (env : RagEnv) (userId : Nat) (query : String)
    (topK : Nat) (namespaceArg : Option String) :
    Except String RagResponse × List String :=
  if query.data.all jsWs then (.error "Query cannot be empty", [])
  else if env.indexName = "" then (.error "PINECONE_INDEX not configured", [])
  else
    let ns := namespaceArg.getD ("user-" ++ toString userId)
    match env.embed query with
    | .error _ => (.error ragFailMsg, [])
    | .ok queryVector =>
      match env.pineconeQuery ns queryVector topK with
      | .error _ => (.error ragFailMsg, [ns])
      | .ok found =>
        let retrievedDocs : List RagDoc := found.map fun m =>
          { text := (m.metadata.bind RagMatchMeta.text).getD ""
            fileName := (m.metadata.bind RagMatchMeta.fileName).getD ""
            score := m.score }
        if retrievedDocs.isEmpty then
          (.ok { success := true, query := query, answer := ragNotFoundAnswer,
                 sources := [], totalSources := 0, nspace := none }, [ns])
        else
          let context := String.intercalate "\n\n" (retrievedDocs.enum.map fun p =>
            "[Source " ++ toString (p.1 + 1) ++ " from " ++ p.2.fileName ++ "]: " ++ p.2.text)
          let userContent := "Based on the following documents, please answer this question: \"" ++
            query ++ "\"\n\nDocuments:\n" ++ context
          match env.chatComplete ragSystemPrompt userContent with
          | .error _ => (.error ragFailMsg, [ns])
          | .ok contentOpt =>
            let answer := match contentOpt with
              | some c => if c = "" then "Sorry, I could not generate a response." else c
              | none => "Sorry, I could not generate a response."
            let sources := retrievedDocs.enum.map fun p =>
              ({ source := p.1 + 1, fileName := p.2.fileName, score := p.2.score,
                 text := p.2.text.take 200 ++ "..." } : RagSource)
            (.ok { success := true, query := query, answer := answer, sources := sources,
                   totalSources := sources.length, nspace := some ns }, [ns])

/-! ## Ingestion: chunking and processAndUpsert (src/rag/rag.service.ts) -/

/-- First half of text.replace over the whitespace regex: each whitespace
character becomes a space. -/
def wsToSpace (c : Char) : Char := if jsWs c then ' ' else c

/-- Second half of the whitespace normalization: a run of spaces collapses to
one space. -/
def squeezeSpaces : List Char → List Char
  | [] => []
  | [c] => [c]
  | c :: c2 :: rest =>
    if c = ' ' ∧ c2 = ' ' then squeezeSpaces (c2 :: rest)
    else c :: squeezeSpaces (c2 :: rest)

/-- The trim call of chunkText; after normalization all whitespace is a
space, so trimming spaces is trimming whitespace. -/
def trimSpaces (l : List Char) : List Char :=
  ((l.dropWhile (fun c => c = ' ')).reverse.dropWhile (fun c => c = ' ')).reverse

/-- The cleaned text of chunkText: whitespace runs collapsed to single
spaces, then trimmed, as a character list. -/
def cleanChars (text : String) : List Char :=
  trimSpaces (squeezeSpaces (text.data.map wsToSpace))

/-- The while loop of chunkText over the cleaned character list, with the
window size 1200 and overlap 200 used at the only call site (the source
defaults coincide with them).  Each step slices the window from i to
min (i + size) length, stops when the window reaches the end, and otherwise
restarts at max 0 (end - overlap). -/
def chunkLoop (clean : List Char) (i : Nat) : List (List Char) :=
  if _h : i < clean.length then
    if min (i + 1200) clean.length = clean.length then
      [(clean.drop i).take (min (i + 1200) clean.length - i)]
    else
      ((clean.drop i).take (min (i + 1200) clean.length - i)) ::
        chunkLoop clean (max 0 (min (i + 1200) clean.length - 200))
  else []
termination_by clean.length - i
decreasing_by
  rename_i he
  have hlt : i + 1200 < clean.length := by
    rcases Nat.lt_or_ge (i + 1200) clean.length with h1 | h1
    · exact h1
    · exact absurd (Nat.min_eq_right h1) he
  have hmin : min (i + 1200) clean.length = i + 1200 := Nat.min_eq_left (Nat.le_of_lt hlt)
  rw [hmin]
  omega

/-- Character-level chunkText: empty cleaned text yields no chunks, otherwise
the window loop starting at 0. -/
def chunkChars (text : String) : List (List Char) :=
  let clean := cleanChars text
  if clean = [] then [] else chunkLoop clean 0

/-- Embedding of RagService.chunkText at its call-site parameters
(window 1200, overlap 200), as a list of strings. -/
def chunkText (text : String) : List String :=
  (chunkChars text).map (fun w => String.mk w)

/-- Observer joining chunk windows back together: a non-final window
contributes its first 1000 characters (its 1200 minus the 200 characters
the next window re-reads), the final window contributes all of itself.
That this join reproduces the cleaned text states at once that consecutive
windows overlap by exactly 200 characters and that the windows jointly
cover the whole cleaned text. -/
def ovJoin : List (List Char) → List Char
  | [] => []
  | [w] => w
  | w :: ws => w.take 1000 ++ ovJoin ws

/-- An uploaded file: original name and raw content. -/
structure UpFile where
  originalname : String
  buffer : Buffer
deriving DecidableEq

/-- Document type accepted by extractText. -/
inductive DocType where
  | pdf
  | docx
deriving DecidableEq

/-- Metadata attached to each upserted vector. -/
structure VecMeta where
  userId : Nat
  fileName : String
  chunkIndex : Nat
  text : String
deriving DecidableEq

/-- One vector sent to Pinecone upsert. -/
structure PineVector where
  id : String
  values : Vec
  metadata : VecMeta
deriving DecidableEq

/-- Observable side effects of ingestion: an embedding call per chunk and the
final namespace upsert. -/
inductive IngestEvent where
  | embedCall (chunk : String)
  | upsertCall (ns : String) (count : Nat)
deriving DecidableEq

/-- Environment of ingestion collaborators.  now stands for Date.now() used
in vector ids; mammothExtract returns the optional raw text of a DOCX
buffer. -/
structure IngestEnv where
  indexName : String
  now : Nat
  embed : String → Except String Vec
  upsert : String → List PineVector → Except String Unit
  mammothExtract : Buffer → Except String (Option String)

/-- The message of the placeholder throw inside the PDF branch of
extractText. -/
def pdfNotImplementedMsg : String :=
  "PDF text extraction not yet implemented. Please use DOCX files for now."

/-- The message of the catch handler of the PDF branch, which is what the
caller of extractText actually observes. -/
def pdfParseFailMsg : String :=
  "Failed to parse PDF file. Please ensure the file is not corrupted."

/-- The message of the catch handler of the DOCX branch. -/
def docxParseFailMsg : String :=
  "Failed to parse DOCX file. Please ensure the file is not corrupted."

/-- Embedding of RagService.extractText.  The PDF branch throws its
not-yet-implemented placeholder inside its own try, whose catch rethrows the
parse failure, so the surfaced error is the parse failure.  The DOCX branch
delegates to mammoth and trims the optional value. -/
def extractText (env : IngestEnv) (file : UpFile) (docType : DocType) : Except String String :=
  match docType with
  | .pdf => tryCatchE (.error pdfNotImplementedMsg) (fun _ => .error pdfParseFailMsg)
  | .docx =>
    tryCatchE ((env.mammothExtract file.buffer).map
        (fun v => String.mk (trimWs (v.getD "").data)))
      (fun _ => .error docxParseFailMsg)

/-- The embedding loop of processAndUpsert: one embedding call per chunk,
building the vector list; a throw from the embedding call propagates (the
source has no try around this loop).  The index argument i numbers the
chunks. -/
def buildVectors (env : IngestEnv) (userId : Nat) (fileName : String) :
    Nat → List String → Except String (List PineVector) × List IngestEvent
  | _, [] => (.ok [], [])
  | i, c :: cs =>
    match env.embed c with
    | .error e => (.error e, [.embedCall c])
    | .ok values =>
      let v : PineVector :=
        { id := toString userId ++ "-" ++ toString env.now ++ "-" ++ toString i
          values := values
          metadata := { userId := userId, fileName := fileName, chunkIndex := i, text := c } }
      match buildVectors env userId fileName (i + 1) cs with
      | (.error e, tr) => (.error e, .embedCall c :: tr)
      | (.ok vs, tr) => (.ok (v :: vs), .embedCall c :: tr)

/-- The lowercased extension of a file name: the last dot-separated
component, as computed by split, pop and toLowerCase in the source. -/
def extChars (name : String) : List Char :=
  ((splitDots name.data).getLastD []).map Char.toLower

/-- The success value of processAndUpsert. -/
structure IngestResult where
  success : Bool
  chunks : Nat
  index : String
  nspace : String
deriving DecidableEq

/-- Embedding of RagService.processAndUpsert: file-presence guard, extension
whitelist (last dot-separated component, lowercased), text extraction,
chunking, index-name guard, per-chunk embedding, then the namespace upsert.
The trace records embedding calls and the upsert. -/
def processAndUpsert (env : IngestEnv) (userId : Nat) (file : Option UpFile)
    (namespaceArg : Option String) :
    Except String IngestResult × List IngestEvent :=
  match file with
  | none => (.error "No file provided", [])
  | some f =>
    let ext := extChars f.originalname
    if ¬(ext = "pdf".data ∨ ext = "docx".data) then
      (.error "Only PDF and DOCX are supported", [])
    else
      match extractText env f (if ext = "pdf".data then .pdf else .docx) with
      | .error e => (.error e, [])
      | .ok text =>
        let chunks := chunkText text
        if env.indexName = "" then (.error "PINECONE_INDEX not configured", [])
        else
          match buildVectors env userId f.originalname 0 chunks with
          | (.error e, tr) => (.error e, tr)
          | (.ok vectors, tr) =>
            let ns := namespaceArg.getD ("user-" ++ toString userId)
            match env.upsert ns vectors with
            | .error e => (.error e, tr ++ [.upsertCall ns vectors.length])
            | .ok _ =>
              (.ok { success := true, chunks := chunks.length, index := env.indexName,
                     nspace := ns }, tr ++ [.upsertCall ns vectors.length])

/-! ## Agent orchestrator (src/ai-agent/services/langchain.service.ts) -/

/-- Chat roles in the message history. -/
inductive Role where
  | user
  | assistant
  | system
  | tool
deriving DecidableEq

/-- A calendar event attendee as declared in the addCalendarEvent schema. -/
structure Attendee where
  email : String
  displayName : Option String
deriving DecidableEq

/-- The argument object of the addCalendarEvent tool. -/
structure CalendarEventInput where
  summary : String
  description : String
  startTime : String
  endTime : String
  attendees : List Attendee
deriving DecidableEq

/-- Arguments of one tool invocation request; the constructor identifies the
tool, which in the source is carried by the tool-call name.  toAddr mirrors
the source argument to, a Lean keyword. -/
inductive ToolArgs where
  | email (toAddr : String) (subject : String) (text : String)
  | calendarEvent (input : CalendarEventInput)
  | eventsRange (startTime : String) (endTime : String)
  | ragQuery (query : String)
deriving DecidableEq

/-- The registered name of the tool a request addresses. -/
def toolName : ToolArgs → String
  | .email _ _ _ => "sendEmail"
  | .calendarEvent _ => "addCalendarEvent"
  | .eventsRange _ _ => "getEventsInRange"
  | .ragQuery _ => "queryDocuments"

/-- One message of the graph state: role, content, the tool invocation
requests attached to a model output, and the tool name on tool-result
messages. -/
structure ChatMsg where
  role : Role
  content : String
  tool_calls : List ToolArgs
  name : Option String
deriving DecidableEq

/-- The tool-result message the ToolNode appends for one executed tool. -/
def toolMsg (n : String) (s : String) : ChatMsg :=
  { role := .tool, content := s, tool_calls := [], name := some n }

/-- Errors crossing the graph boundary.  recursionLimit models the
GraphRecursionError whose message the source detects with an includes check
on recursion limit; other carries any other thrown message. -/
inductive AgentErr where
  | recursionLimit
  | other (msg : String)
deriving DecidableEq

/-- The language model as a collaborator: full message list in, one
assistant message (possibly with tool requests) out, or a throw. -/
abbrev LlmFn := List ChatMsg → Except AgentErr ChatMsg

/-- The configurable part of a LangGraph run configuration, from which the
queryDocuments tool reads its userId. -/
structure Configurable where
  userId : Option Nat
deriving DecidableEq

/-- The run configuration passed as the second argument of graph.invoke. -/
structure InvokeConfig where
  recursionLimit : Option Nat
  configurable : Option Configurable
deriving DecidableEq

/-- Result of the email transport. -/
structure EmailResult where
  messageId : String
deriving DecidableEq

/-- Result of creating a calendar event. -/
structure CalEvent where
  htmlLink : String
deriving DecidableEq

/-- A Google Calendar event time: dateTime or all-day date, both optional. -/
structure EvTime where
  dateTime : Option String
  date : Option String
deriving DecidableEq

/-- A Google Calendar event as consumed by the getEventsInRange tool; endT
mirrors the source field end, which is a Lean keyword. -/
structure GCalEvent where
  summary : String
  start : EvTime
  endT : EvTime
deriving DecidableEq

/-- Environment of the tool-set collaborators; each service call may
throw. -/
structure ToolEnv where
  sendEmail : String → String → String → Except String EmailResult
  addEvent : CalendarEventInput → Except String CalEvent
  getEventsInRange : String → String → Except String (List GCalEvent)
  rag : RagEnv

/-- Not-configured result of the sendEmail tool. -/
def emailNotConfiguredMsg : String :=
  "Email service is not configured. Please set up SMTP credentials to enable email functionality."

/-- Catch-handler result of the sendEmail tool. -/
def emailFailMsg : String :=
  "It seems there is an issue with sending the email. Please try again later or check the email address for any errors."

/-- Catch-handler result of the addCalendarEvent tool. -/
def calendarFailMsg : String :=
  "Failed to create the calendar event. Please check the details or try again later."

/-- Catch-handler result of the getEventsInRange tool. -/
def eventsFailMsg : String :=
  "Failed to fetch calendar events. Please check the time range format."

/-- Body of the sendEmail tool: delegate to the email service inside a
try/catch; a disabled transport yields the not-configured text, success
yields Email sent., any throw yields the user-facing failure text. -/
def emailToolRun (tenv : ToolEnv) (toAddr : String) (subject : String) (text : String) :
    Except AgentErr String :=
  tryCatchE
    (match tenv.sendEmail toAddr subject text with
     | .error e => .error (.other e)
     | .ok result =>
       .ok (if result.messageId = "disabled" then emailNotConfiguredMsg else "Email sent."))
    (fun _ => .ok emailFailMsg)

/-- Body of the addCalendarEvent tool. -/
def calendarEventToolRun (tenv : ToolEnv) (input : CalendarEventInput) :
    Except AgentErr String :=
  tryCatchE
    (match tenv.addEvent input with
     | .error e => .error (.other e)
     | .ok event => .ok ("Event created: " ++ event.htmlLink))
    (fun _ => .ok calendarFailMsg)

/-- One formatted line of the getEventsInRange tool output. -/
def formatEvent (ev : GCalEvent) : String :=
  let s := (ev.start.dateTime <|> ev.start.date).getD "undefined"
  let e := (ev.endT.dateTime <|> ev.endT.date).getD "undefined"
  "📅 " ++ ev.summary ++ " (" ++ s ++ " → " ++ e ++ ")"

/-- Body of the getEventsInRange tool. -/
def getEventsToolRun (tenv : ToolEnv) (startTime : String) (endTime : String) :
    Except AgentErr String :=
  tryCatchE
    (match tenv.getEventsInRange startTime endTime with
     | .error e => .error (.other e)
     | .ok events =>
       .ok (if events.isEmpty then "No events found in this time range."
            else
              "Found " ++ toString events.length ++ " event(s):\n\n" ++
                String.intercalate "\n" (events.map formatEvent)))
    (fun _ => .ok eventsFailMsg)

/-- Body of the queryDocuments tool.  The userId is read from the run
configuration as configurable?.userId with fallback 1, then
generateRAGResponse is called with the default topK 5 and no namespace
override; a throw or an unsuccessful or empty answer yields the not-found
text.  The namespace trace of the RAG call is returned alongside. -/
def ragQueryToolRun (renv : RagEnv) (config : InvokeConfig) (query : String) :
    Except AgentErr String × List String :=
  let uid := (config.configurable.bind Configurable.userId).getD 1
  match generateRAGResponse renv uid query 5 none with
  | (.error _, tr) => (.ok ragNotFoundAnswer, tr)
  | (.ok result, tr) =>
    (.ok (if result.success = true ∧ result.answer ≠ "" then result.answer
          else ragNotFoundAnswer), tr)

/-- Execution of one requested tool by the ToolNode: dispatch on the tool,
wrap the textual result as a tool message, and pass the run configuration
through to the tool (only queryDocuments reads it). -/
def execTool (tenv : ToolEnv) (config : InvokeConfig) :
    ToolArgs → Except AgentErr ChatMsg × List String
  | .email toAddr subject text =>
    ((emailToolRun tenv toAddr subject text).map (toolMsg "sendEmail"), [])
  | .calendarEvent input =>
    ((calendarEventToolRun tenv input).map (toolMsg "addCalendarEvent"), [])
  | .eventsRange s e =>
    ((getEventsToolRun tenv s e).map (toolMsg "getEventsInRange"), [])
  | .ragQuery q =>
    let r := ragQueryToolRun tenv.rag config q
    (r.1.map (toolMsg "queryDocuments"), r.2)

/-- Execution of all tool requests of one model turn, in order, collecting
results and namespace traces; a tool error would stop the node. -/
def runToolCalls (tenv : ToolEnv) (config : InvokeConfig) :
    List ToolArgs → Except AgentErr (List ChatMsg) × List String
  | [] => (.ok [], [])
  | a :: rest =>
    match execTool tenv config a with
    | (.error e, tr) => (.error e, tr)
    | (.ok m, tr) =>
      match runToolCalls tenv config rest with
      | (.error e, tr2) => (.error e, tr ++ tr2)
      | (.ok ms, tr2) => (.ok (m :: ms), tr ++ tr2)

/-- Observables of one graph run: the final message list or the error, the
Pinecone namespaces queried, the number of model (llmCall) node executions,
and the number of executed graph super-steps, which is what the recursion
limit counts. -/
structure LoopOut where
  result : Except AgentErr (List ChatMsg)
  ragNamespaces : List String
  modelCalls : Nat
  steps : Nat
deriving DecidableEq

/-- The compiled graph loop: start at llmCall; a model output with tool
requests routes to the tools node and back, otherwise the run ends.  The
fuel is the remaining super-step budget of the recursion limit; exhausting
it raises the recursion-limit error, exactly as a graph that still wants to
run a node past the limit does. -/
def loopFrom (llm : LlmFn) (tenv : ToolEnv) (config : InvokeConfig) :
    Nat → List ChatMsg → LoopOut
  | 0, _ => { result := .error .recursionLimit, ragNamespaces := [], modelCalls := 0, steps := 0 }
  | fuel + 1, msgs =>
    match llm msgs with
    | .error e => { result := .error e, ragNamespaces := [], modelCalls := 1, steps := 1 }
    | .ok out =>
      let msgs2 := msgs ++ [out]
      if out.tool_calls.isEmpty then
        { result := .ok msgs2, ragNamespaces := [], modelCalls := 1, steps := 1 }
      else
        match fuel with
        | 0 => { result := .error .recursionLimit, ragNamespaces := [], modelCalls := 1, steps := 1 }
        | fuel2 + 1 =>
          match runToolCalls tenv config out.tool_calls with
          | (.error e, tr) => { result := .error e, ragNamespaces := tr, modelCalls := 1, steps := 2 }
          | (.ok results, tr) =>
            let sub := loopFrom llm tenv config fuel2 (msgs2 ++ results)
            { result := sub.result, ragNamespaces := tr ++ sub.ragNamespaces,
              modelCalls := 1 + sub.modelCalls, steps := 2 + sub.steps }

/-- The configuration runAgent passes to graph.invoke: a recursion limit of
10 and nothing else — in particular no configurable, which is what the
queryDocuments tool reads its userId from. -/
def runAgentConfig : InvokeConfig := { recursionLimit := some 10, configurable := none }

/-- One graph invocation as performed by runAgent: the loop under the
recursion limit of runAgentConfig. -/
def runAgentLoop (llm : LlmFn) (tenv : ToolEnv) (history : List ChatMsg) : LoopOut :=
  loopFrom llm tenv runAgentConfig (runAgentConfig.recursionLimit.getD 25) history

/-- The input object runAgent passes to graph.invoke.  The graph state
schema (MessagesAnnotation) declares only the messages channel, so the
userId key never becomes part of the graph state and is unreachable by the
tools. -/
structure GraphInput where
  messages : List ChatMsg
  userId : Nat
deriving DecidableEq

/-- Fallback reply of runAgent when the caught error is the recursion-limit
error. -/
def recursionFallbackMsg : String :=
  "I apologize, but I encountered an issue processing your request. Please try rephrasing your message or ask for something simpler."

/-- Fallback reply of runAgent for any other caught error. -/
def agentFallbackMsg : String :=
  "I apologize, but I encountered an issue processing your request. Please try again later."

/-- Embedding of LangchainService.runAgent.  The input carries the message
history and the userId, but only input.messages feeds the graph (see
GraphInput); the configuration is runAgentConfig.  A successful run returns
the last message; a caught recursion-limit error returns the rephrase
fallback; any other caught error returns the try-again fallback.  The
second component is the trace of Pinecone namespaces queried during the
run. -/
def runAgent (llm : LlmFn) (tenv : ToolEnv) (userMessageHistory : List ChatMsg)
    (userId : Nat) : ChatMsg × List String :=
  let input : GraphInput := { messages := userMessageHistory, userId := userId }
  let out := runAgentLoop llm tenv input.messages
  match out.result with
  | .ok msgs =>
    (msgs.getLastD { role := .assistant, content := "", tool_calls := [], name := none },
     out.ragNamespaces)
  | .error .recursionLimit =>
    ({ role := .assistant, content := recursionFallbackMsg, tool_calls := [], name := none },
     out.ragNamespaces)
  | .error (.other _) =>
    ({ role := .assistant, content := agentFallbackMsg, tool_calls := [], name := none },
     out.ragNamespaces)

/-- A fixed tool request used by the model stub that never finalizes. -/
def alwaysToolArg : ToolArgs := .email "user@example.com" "subject" "body"

/-- Model stub that always requests a tool and never finalizes, as required
by the termination property of the spec. -/
def alwaysTool : LlmFn := fun _ =>
  .ok { role := .assistant, content := "", tool_calls := [alwaysToolArg], name := none }

/-- Model stub that requests the given tool once and finalizes as soon as a
tool result is visible in the history. -/
def oneShotLlm (a : ToolArgs) : LlmFn := fun msgs =>
  if msgs.any (fun m => m.role = Role.tool) then
    .ok { role := .assistant, content := "done", tool_calls := [], name := none }
  else
    .ok { role := .assistant, content := "", tool_calls := [a], name := none }

/-! ## Turn coordinator (src/ai-agent/ai-agent.service.ts) -/

/-- One persisted message as returned by the message store read. -/
structure MsgRecord where
  sender_id : Nat
  content : String
deriving DecidableEq

/-- Result of a message-store write: the authoritative conversation id and
the id of the written message. -/
structure SendResult where
  conversationId : Nat
  msgId : Nat
deriving DecidableEq

/-- The success value of processMessage. -/
structure ProcResult where
  success : Bool
  aiResponse : String
  messageId : Nat
  conversationId : Nat
  audioResponseUrl : Option String
deriving DecidableEq

/-- Observable events of one turn: the agent invocation and each
message-store write call, with its arguments and outcome, in call order. -/
inductive WEvent where
  | agentRun (history : List ChatMsg) (userId : Nat) (outcome : Except String ChatMsg)
  | send (senderId : Nat) (conversationId : Option Nat) (recipientId : Option Nat)
      (content : String) (file : Option Buffer) (outcome : Except String SendResult)
deriving DecidableEq

/-- Whether a turn event is a message-store write call. -/
def WEvent.isSend : WEvent → Bool
  | .send _ _ _ _ _ _ => true
  | _ => false

/-- Environment of the turn coordinator collaborators: the fixed agent
identity, the message-store read and write, the agent service, and the
speech synthesis and upload services.  getMessages takes the requesting
user then the conversation; sendMessage takes sender, conversation,
recipient, content and optional attachment.  runAgent is the orchestrator
as seen across the service boundary (the concrete orchestrator of this file
never throws, but the boundary allows it). -/
structure CoordEnv where
  aiAgentId : Nat
  getMessages : Nat → Nat → Except String (List MsgRecord)
  runAgent : List ChatMsg → Nat → Except String ChatMsg
  sendMessage : Nat → Option Nat → Option Nat → String → Option Buffer →
    Except String SendResult
  textToSpeech : String → Except String Buffer
  uploadFile : Buffer → Except String (Option String)

/-- The generic failure rethrown by the catch-all of processMessage. -/
def genericProcMsg : String := "Failed to process AI request. Please try again later."

/-- The internal validation error thrown when neither a conversation nor a
recipient is given. -/
def missingTargetMsg : String := "Either conversationId or recipientId must be provided."

/-- The internal validation error thrown for a recipient other than the
agent identity. -/
def invalidRecipientMsg : String := "Invalid recipient. Messages can only be sent to the AI agent."

/-- Embedding of the private getConversationHistory: read the conversation
as the agent identity and map each record to a role-tagged message; any
throw is caught inside and degrades to an empty history. -/
def getConversationHistory (env : CoordEnv) (conversationId : Nat) : List ChatMsg :=
  match env.getMessages env.aiAgentId conversationId with
  | .error _ => []
  | .ok records =>
    records.map fun m =>
      { role := if m.sender_id = env.aiAgentId then Role.assistant else Role.user,
        content := m.content, tool_calls := [], name := none }

/-- The history handed to the agent for one turn: the loaded conversation
history (empty for a new conversation) with the current user message
appended. -/
def turnHistory (env : CoordEnv) (conversationId : Option Nat) (message : String) :
    List ChatMsg :=
  (match conversationId with
   | some cid => getConversationHistory env cid
   | none => []) ++
    [{ role := .user, content := message, tool_calls := [], name := none }]

/-- The try block of processMessage, before the catch-all: validation,
history assembly, agent invocation, user-message write, optional voice
synthesis and upload (failures swallowed, though the synthesized file
survives a failed upload), then the reply write under the conversation id
returned by the user-message write.  Errors carry the internal message;
the trace records the agent invocation and every write call. -/
def processMessageTry (env : CoordEnv) (message : String) (conversationId : Option Nat)
    (userId : Nat) (recipientId : Option Nat) (file : Option Buffer)
    (isVoiceMessage : Bool) : Except String ProcResult × List WEvent :=
  if conversationId = none ∧ recipientId = none then (.error missingTargetMsg, [])
  else if recipientId.getD env.aiAgentId ≠ env.aiAgentId then (.error invalidRecipientMsg, [])
  else
    let messageHistory := turnHistory env conversationId message
    let aiOut := env.runAgent messageHistory userId
    let ev1 := WEvent.agentRun messageHistory userId aiOut
    match aiOut with
    | .error e => (.error e, [ev1])
    | .ok aiResponse =>
      let uOut := env.sendMessage userId conversationId (some env.aiAgentId) message file
      let ev2 := WEvent.send userId conversationId (some env.aiAgentId) message file uOut
      match uOut with
      | .error e => (.error e, [ev1, ev2])
      | .ok userMessageResult =>
        let resolved := userMessageResult.conversationId
        let voiceOut : Option Buffer × Option String :=
          if isVoiceMessage then
            match env.textToSpeech aiResponse.content with
            | .error _ => (none, none)
            | .ok audioBuffer =>
              match env.uploadFile audioBuffer with
              | .error _ => (some audioBuffer, none)
              | .ok urlOpt => (some audioBuffer, urlOpt)
          else (none, none)
        let aOut := env.sendMessage env.aiAgentId (some resolved) (some userId)
          aiResponse.content voiceOut.1
        let ev3 := WEvent.send env.aiAgentId (some resolved) (some userId)
          aiResponse.content voiceOut.1 aOut
        (match aOut with
         | .error e => .error e
         | .ok aiMessage =>
           .ok { success := true, aiResponse := aiResponse.content,
                 messageId := aiMessage.msgId, conversationId := resolved,
                 audioResponseUrl := voiceOut.2 },
         [ev1, ev2, ev3])

/-- Embedding of AiAgentService.processMessage: the try block wrapped by the
catch-all that logs the internal cause and rethrows the single generic
failure, so every internal error surfaces as genericProcMsg. -/
def processMessage (env : CoordEnv) (message : String) (conversationId : Option Nat)
    (userId : Nat) (recipientId : Option Nat) (file : Option Buffer)
    (isVoiceMessage : Bool) : Except String ProcResult × List WEvent :=
  let r := processMessageTry env message conversationId userId recipientId file isVoiceMessage
  (r.1.mapError (fun _ => genericProcMsg), r.2)

/-! ## Concrete collaborator instances used by closed evaluations -/

/-- A RAG environment whose index is configured, whose embedding succeeds
and whose nearest-neighbor search finds nothing. -/
def stubRagEnv : RagEnv :=
  { indexName := "idx"
    embed := fun _ => .ok [1]
    pineconeQuery := fun _ _ _ => .ok []
    chatComplete := fun _ _ => .ok (some "ans") }

/-- A tool environment whose services all succeed. -/
def stubToolEnv : ToolEnv :=
  { sendEmail := fun _ _ _ => .ok { messageId := "mid" }
    addEvent := fun _ => .ok { htmlLink := "link" }
    getEventsInRange := fun _ _ => .ok []
    rag := stubRagEnv }

/-- A tool environment whose services all throw. -/
def throwingToolEnv : ToolEnv :=
  { sendEmail := fun _ _ _ => .error "smtp down"
    addEvent := fun _ => .error "calendar down"
    getEventsInRange := fun _ _ => .error "calendar down"
    rag := { indexName := "idx"
             embed := fun _ => .error "openai down"
             pineconeQuery := fun _ _ _ => .error "pinecone down"
             chatComplete := fun _ _ => .error "openai down" } }

/-- A coordinator environment whose collaborators all succeed. -/
def stubCoordEnv : CoordEnv :=
  { aiAgentId := 1
    getMessages := fun _ _ => .ok []
    runAgent := fun _ _ =>
      .ok { role := .assistant, content := "hello there", tool_calls := [], name := none }
    sendMessage := fun _ _ _ _ _ => .ok { conversationId := 42, msgId := 7 }
    textToSpeech := fun _ => .ok [0]
    uploadFile := fun _ => .ok (some "http://files/a.mp3") }

/-- stubCoordEnv with a throwing history read. -/
def historyFailEnv : CoordEnv :=
  { stubCoordEnv with getMessages := fun _ _ => .error "db connection lost" }

/-- stubCoordEnv with a throwing speech synthesis. -/
def ttsFailEnv : CoordEnv :=
  { stubCoordEnv with textToSpeech := fun _ => .error "tts down" }

/-- An ingestion environment whose collaborators all succeed. -/
def stubIngestEnv : IngestEnv :=
  { indexName := "idx"
    now := 0
    embed := fun _ => .ok [1]
    upsert := fun _ _ => .ok ()
    mammothExtract := fun _ => .ok (some "hello world") }

/-- A PDF upload used by concrete evaluations. -/
def pdfFileEx : UpFile := { originalname := "report.pdf", buffer := [] }

/-! ## Helper lemmas and claim theorems -/

/-- Reduction of mapError on a success. -/
theorem exceptMapError_ok {ε ε2 α : Type} (f : ε → ε2) (a : α) :
    Except.mapError f (Except.ok a) = Except.ok a := rfl

/-- Reduction of mapError on an error. -/
theorem exceptMapError_error {ε ε2 α : Type} (f : ε → ε2) (e : ε) :
    (Except.mapError f (Except.error e) : Except ε2 α) = Except.error (f e) := rfl

/-- C4 counterexample: for the concrete turn with neither a conversation nor
a recipient, the coordinator raises the internal validation error but the
caller receives only the generic processing failure, which is not the
validation error — so the claim that a ValidationError is returned to the
caller fails on the code. -/
theorem c4_counterexample :
    processMessage stubCoordEnv "hi" none 9 none none false = (.error genericProcMsg, []) ∧
    (processMessageTry stubCoordEnv "hi" none 9 none none false).1 = .error missingTargetMsg ∧
    genericProcMsg ≠ missingTargetMsg := by
  refine ⟨rfl, rfl, by decide⟩

/-- C4 (amended): for every turn in which both conversationId and
recipientId are absent, processMessage rejects immediately with zero
writes, no agent and no tool call (empty event trace); the error raised
internally is the missing-target validation error, but the error surfaced
to the caller is the generic processing failure, because the catch-all
replaces it. -/
theorem c4_missing_target_rejected (env : CoordEnv) (message : String) (userId : Nat)
    (file : Option Buffer) (isVoiceMessage : Bool) :
    processMessage env message none userId none file isVoiceMessage =
      (.error genericProcMsg, []) ∧
    (processMessageTry env message none userId none file isVoiceMessage).1 =
      .error missingTargetMsg := by
  constructor
  · rfl
  · rfl

/-- C5 counterexample: a turn whose history read throws succeeds end to end
(the exception from step 1 is swallowed inside the history loader), so not
every exception raised during steps 1 through 3 is re-surfaced as the
generic processing failure. -/
theorem c5_counterexample :
    historyFailEnv.getMessages historyFailEnv.aiAgentId 5 = .error "db connection lost" ∧
    (processMessage historyFailEnv "hi" (some 5) 7 none none false).1 =
      .ok { success := true, aiResponse := "hello there", messageId := 7,
            conversationId := 42, audioResponseUrl := none } := by
  exact ⟨rfl, rfl⟩

/-- C5 (amended): every error processMessage surfaces to the caller is the
single generic processing failure (internal causes are never leaked
verbatim), but an exception while loading the conversation history is
instead caught inside the loader and degrades to an empty history, so the
turn proceeds rather than failing. -/
theorem c5_generic_failure :
    (∀ (env : CoordEnv) (m : String) (cid : Option Nat) (u : Nat) (rid : Option Nat)
      (f : Option Buffer) (v : Bool) (e : String),
      (processMessage env m cid u rid f v).1 = .error e → e = genericProcMsg) ∧
    (∀ (env : CoordEnv) (cid : Nat) (err : String),
      env.getMessages env.aiAgentId cid = .error err →
      getConversationHistory env cid = []) := by
  constructor
  · intro env m cid u rid f v e h
    simp only [processMessage] at h
    cases h2 : (processMessageTry env m cid u rid f v).1 with
    | ok a => rw [h2] at h; simp [Except.mapError] at h
    | error b => rw [h2] at h; simp [Except.mapError] at h; exact h.symm
  · intro env cid err h
    simp [getConversationHistory, h]

/-- C5 witness: the amended theorem applied at a concrete rejected turn and
at a concrete failing history read. -/
theorem c5_generic_failure_witness :
    genericProcMsg = genericProcMsg ∧ getConversationHistory historyFailEnv 5 = [] := by
  exact ⟨c5_generic_failure.1 stubCoordEnv "hi" none 9 none none false genericProcMsg (by rfl),
         c5_generic_failure.2 historyFailEnv 5 "db connection lost" (by rfl)⟩

/-- C6: for every query that reaches the search (non-blank, index
configured) whose nearest-neighbor search in the owner namespace user-{id}
returns zero matches, generateRAGResponse returns success with the
not-found answer, zero sources, and no error; the only namespace queried is
the owner namespace. -/
theorem c6_no_match_is_success (env : RagEnv) (uid : Nat) (q : String) (v : Vec)
    (hq : q.data.all jsWs = false) (hidx : env.indexName ≠ "")
    (hemb : env.embed q = .ok v)
    (hfind : env.pineconeQuery ("user-" ++ toString uid) v 5 = .ok []) :
    generateRAGResponse env uid q 5 none =
      (.ok { success := true, query := q, answer := ragNotFoundAnswer,
             sources := [], totalSources := 0, nspace := none },
       ["user-" ++ toString uid]) := by
  simp [generateRAGResponse, hq, hidx, hemb, hfind]

/-- C6 witness: the theorem at a concrete environment with an empty
namespace. -/
theorem c6_no_match_is_success_witness :
    generateRAGResponse stubRagEnv 3 "hello" 5 none =
      (.ok { success := true, query := "hello", answer := ragNotFoundAnswer,
             sources := [], totalSources := 0, nspace := none },
       ["user-" ++ toString 3]) := by
  exact c6_no_match_is_success stubRagEnv 3 "hello" [1] (by decide) (by decide) (by rfl) (by rfl)

/-- C10 counterexample: ingesting a concrete PDF aborts, but the surfaced
error is the parse failure of the catch handler, not the internal
not-yet-implemented message named by the claim, because the placeholder
throw is caught by its own catch and replaced. -/
theorem c10_counterexample :
    processAndUpsert stubIngestEnv 7 (some pdfFileEx) none = (.error pdfParseFailMsg, []) ∧
    pdfParseFailMsg ≠ pdfNotImplementedMsg := by
  refine ⟨rfl, by decide⟩

/-- C10 (amended): every PDF upload passes the extension whitelist but
always aborts during text extraction — with the surfaced parse error
Failed to parse PDF file (the internal not-yet-implemented error is caught
and replaced) — before any embedding call or upsert happens (empty event
trace); and an ingestion can only succeed for a DOCX extension, so no
partial index writes happen for rejected files. -/
theorem c10_pdf_never_ingested :
    (∀ (env : IngestEnv) (uid : Nat) (f : UpFile) (nsArg : Option String),
      extChars f.originalname = "pdf".data →
      processAndUpsert env uid (some f) nsArg = (.error pdfParseFailMsg, [])) ∧
    (∀ (env : IngestEnv) (uid : Nat) (fo : Option UpFile) (nsArg : Option String)
      (r : IngestResult) (tr : List IngestEvent),
      processAndUpsert env uid fo nsArg = (.ok r, tr) →
      ∃ f, fo = some f ∧ extChars f.originalname = "docx".data) := by
  constructor
  · intro env uid f nsArg hext
    simp [processAndUpsert, hext, extractText, tryCatchE]
  · intro env uid fo nsArg r tr h
    cases fo with
    | none => simp [processAndUpsert] at h
    | some f =>
      refine ⟨f, rfl, ?_⟩
      by_cases hdocx : extChars f.originalname = "docx".data
      · exact hdocx
      · exfalso
        by_cases hpdf : extChars f.originalname = "pdf".data
        · simp [processAndUpsert, hpdf, extractText, tryCatchE] at h
        · simp [processAndUpsert, hpdf, hdocx] at h

/-- C10 witness: the amended theorem applied at a concrete PDF upload. -/
theorem c10_pdf_never_ingested_witness :
    processAndUpsert stubIngestEnv 3 (some pdfFileEx) none = (.error pdfParseFailMsg, []) := by
  exact c10_pdf_never_ingested.1 stubIngestEnv 3 pdfFileEx none (by decide)

/-- C9: in every turn the event trace takes one of four shapes, and in each
of them any reply write is preceded by a successful user-message write
whose returned conversation id is the one the reply write uses; in
particular the user message stays durably written when the reply path fails
afterwards, and no reply is ever written without the user message having
been written first. -/
theorem c9_user_write_before_reply (env : CoordEnv) (message : String) (cid : Option Nat)
    (userId : Nat) (rid : Option Nat) (file : Option Buffer) (voice : Bool) :
    (processMessage env message cid userId rid file voice).2 = [] ∨
    (∃ hst aOut0,
      (processMessage env message cid userId rid file voice).2 =
        [WEvent.agentRun hst userId aOut0]) ∨
    (∃ hst reply uOut,
      (processMessage env message cid userId rid file voice).2 =
        [WEvent.agentRun hst userId (.ok reply),
         WEvent.send userId cid (some env.aiAgentId) message file uOut]) ∨
    (∃ hst reply r1 af aOut,
      (processMessage env message cid userId rid file voice).2 =
        [WEvent.agentRun hst userId (.ok reply),
         WEvent.send userId cid (some env.aiAgentId) message file (.ok r1),
         WEvent.send env.aiAgentId (some r1.conversationId) (some userId)
           reply.content af aOut]) := by
  by_cases h1 : cid = none ∧ rid = none
  · left
    simp [processMessage, processMessageTry, h1]
  · by_cases h2 : rid.getD env.aiAgentId ≠ env.aiAgentId
    · left
      simp [processMessage, processMessageTry, h1, h2]
    · cases hA : env.runAgent (turnHistory env cid message) userId with
      | error e =>
        right; left
        exact ⟨turnHistory env cid message, .error e,
          by simp [processMessage, processMessageTry, h1, h2, hA]⟩
      | ok reply =>
        cases hU : env.sendMessage userId cid (some env.aiAgentId) message file with
        | error e =>
          right; right; left
          exact ⟨turnHistory env cid message, reply, .error e,
            by simp [processMessage, processMessageTry, h1, h2, hA, hU]⟩
        | ok r1 =>
          right; right; right
          cases voice with
          | false =>
            exact ⟨turnHistory env cid message, reply, r1, none,
              env.sendMessage env.aiAgentId (some r1.conversationId) (some userId)
                reply.content none,
              by simp [processMessage, processMessageTry, h1, h2, hA, hU]⟩
          | true =>
            cases hT : env.textToSpeech reply.content with
            | error terr =>
              exact ⟨turnHistory env cid message, reply, r1, none,
                env.sendMessage env.aiAgentId (some r1.conversationId) (some userId)
                  reply.content none,
                by simp [processMessage, processMessageTry, h1, h2, hA, hU, hT]⟩
            | ok buf =>
              cases hUp : env.uploadFile buf with
              | error uerr =>
                exact ⟨turnHistory env cid message, reply, r1, some buf,
                  env.sendMessage env.aiAgentId (some r1.conversationId) (some userId)
                    reply.content (some buf),
                  by simp [processMessage, processMessageTry, h1, h2, hA, hU, hT, hUp]⟩
              | ok urlOpt =>
                exact ⟨turnHistory env cid message, reply, r1, some buf,
                  env.sendMessage env.aiAgentId (some r1.conversationId) (some userId)
                    reply.content (some buf),
                  by simp [processMessage, processMessageTry, h1, h2, hA, hU, hT, hUp]⟩

/-- C8: for every voice turn that passes validation, whose agent run and
both writes succeed, a failure of speech synthesis — or of the audio upload
after synthesis — is swallowed: the turn still returns success, the reply
text is still written, and only the audio reference is omitted from the
result. -/
theorem c8_voice_failure_swallowed (env : CoordEnv) (message : String) (cid : Option Nat)
    (userId : Nat) (rid : Option Nat) (file : Option Buffer) (reply : ChatMsg)
    (r1 r2 : SendResult) (buf : Buffer) (terr uerr : String)
    (h1 : ¬(cid = none ∧ rid = none))
    (h2 : rid.getD env.aiAgentId = env.aiAgentId)
    (hA : env.runAgent (turnHistory env cid message) userId = .ok reply)
    (hU : env.sendMessage userId cid (some env.aiAgentId) message file = .ok r1)
    (hT : env.textToSpeech reply.content = .error terr ∨
      (env.textToSpeech reply.content = .ok buf ∧ env.uploadFile buf = .error uerr))
    (hR : ∀ af, env.sendMessage env.aiAgentId (some r1.conversationId) (some userId)
      reply.content af = .ok r2) :
    (processMessage env message cid userId rid file true).1 =
      .ok { success := true, aiResponse := reply.content, messageId := r2.msgId,
            conversationId := r1.conversationId, audioResponseUrl := none } ∧
    (∃ af,
      (processMessage env message cid userId rid file true).2 =
        [WEvent.agentRun (turnHistory env cid message) userId (.ok reply),
         WEvent.send userId cid (some env.aiAgentId) message file (.ok r1),
         WEvent.send env.aiAgentId (some r1.conversationId) (some userId)
           reply.content af (.ok r2)]) := by
  rcases hT with hT1 | ⟨hT1, hT2⟩
  · constructor
    · simp [processMessage, processMessageTry, h1, h2, hA, hU, hT1, hR, exceptMapError_ok]
    · exact ⟨none,
        by simp [processMessage, processMessageTry, h1, h2, hA, hU, hT1, hR]⟩
  · constructor
    · simp [processMessage, processMessageTry, h1, h2, hA, hU, hT1, hT2, hR, exceptMapError_ok]
    · exact ⟨some buf,
        by simp [processMessage, processMessageTry, h1, h2, hA, hU, hT1, hT2, hR]⟩

/-- C8 witness: the theorem at a concrete environment whose speech
synthesis throws. -/
theorem c8_voice_failure_swallowed_witness :
    (processMessage ttsFailEnv "hi" none 9 (some 1) none true).1 =
      .ok { success := true, aiResponse := "hello there", messageId := 7,
            conversationId := 42, audioResponseUrl := none } ∧
    (∃ af,
      (processMessage ttsFailEnv "hi" none 9 (some 1) none true).2 =
        [WEvent.agentRun (turnHistory ttsFailEnv none "hi") 9
           (.ok { role := .assistant, content := "hello there", tool_calls := [], name := none }),
         WEvent.send 9 none (some ttsFailEnv.aiAgentId) "hi" none (.ok { conversationId := 42, msgId := 7 }),
         WEvent.send ttsFailEnv.aiAgentId (some 42) (some 9) "hello there" af
           (.ok { conversationId := 42, msgId := 7 })]) := by
  exact c8_voice_failure_swallowed ttsFailEnv "hi" none 9 (some 1) none
    { role := .assistant, content := "hello there", tool_calls := [], name := none }
    { conversationId := 42, msgId := 7 } { conversationId := 42, msgId := 7 }
    [] "tts down" "unused"
    (by decide) (by decide) (by rfl) (by rfl) (Or.inl (by rfl)) (fun af => by rfl)

/-- Reduction of Except.map on a success. -/
theorem exceptMap_ok {ε α β : Type} (f : α → β) (a : α) :
    (Except.map f (Except.ok a) : Except ε β) = Except.ok (f a) := rfl

/-- The sendEmail tool never throws: every service behavior yields a
textual result. -/
theorem emailToolRun_isOk (tenv : ToolEnv) (toAddr subject text : String) :
    ∃ s, emailToolRun tenv toAddr subject text = .ok s := by
  cases h : tenv.sendEmail toAddr subject text with
  | error e => exact ⟨emailFailMsg, by simp [emailToolRun, tryCatchE, h]⟩
  | ok r =>
    by_cases hm : r.messageId = "disabled"
    · exact ⟨emailNotConfiguredMsg, by simp [emailToolRun, tryCatchE, h, hm]⟩
    · exact ⟨"Email sent.", by simp [emailToolRun, tryCatchE, h, hm]⟩

/-- The addCalendarEvent tool never throws. -/
theorem calendarEventToolRun_isOk (tenv : ToolEnv) (input : CalendarEventInput) :
    ∃ s, calendarEventToolRun tenv input = .ok s := by
  cases h : tenv.addEvent input with
  | error e => exact ⟨calendarFailMsg, by simp [calendarEventToolRun, tryCatchE, h]⟩
  | ok ev => exact ⟨"Event created: " ++ ev.htmlLink, by simp [calendarEventToolRun, tryCatchE, h]⟩

/-- The getEventsInRange tool never throws. -/
theorem getEventsToolRun_isOk (tenv : ToolEnv) (startTime endTime : String) :
    ∃ s, getEventsToolRun tenv startTime endTime = .ok s := by
  cases h : tenv.getEventsInRange startTime endTime with
  | error e => exact ⟨eventsFailMsg, by simp [getEventsToolRun, tryCatchE, h]⟩
  | ok events =>
    by_cases hm : events.isEmpty
    · exact ⟨"No events found in this time range.", by simp [getEventsToolRun, tryCatchE, h, hm]⟩
    · exact ⟨"Found " ++ toString events.length ++ " event(s):\n\n" ++
        String.intercalate "\n" (events.map formatEvent),
        by simp [getEventsToolRun, tryCatchE, h, hm]⟩

/-- The queryDocuments tool never throws. -/
theorem ragQueryToolRun_isOk (renv : RagEnv) (config : InvokeConfig) (q : String) :
    ∃ s, (ragQueryToolRun renv config q).1 = .ok s := by
  rcases h : generateRAGResponse renv
    ((config.configurable.bind Configurable.userId).getD 1) q 5 none with ⟨res, tr⟩
  cases res with
  | error e => exact ⟨ragNotFoundAnswer, by simp [ragQueryToolRun, h]⟩
  | ok result =>
    by_cases hc : result.success = true ∧ result.answer ≠ ""
    · exact ⟨result.answer, by simp [ragQueryToolRun, h, hc]⟩
    · exact ⟨ragNotFoundAnswer, by simp [ragQueryToolRun, h, hc]⟩

/-- The queryDocuments tool forwards exactly the namespace trace of the RAG
call it delegates to. -/
theorem ragQueryToolRun_trace (renv : RagEnv) (config : InvokeConfig) (q : String) :
    (ragQueryToolRun renv config q).2 =
      (generateRAGResponse renv
        ((config.configurable.bind Configurable.userId).getD 1) q 5 none).2 := by
  rcases h : generateRAGResponse renv
    ((config.configurable.bind Configurable.userId).getD 1) q 5 none with ⟨res, tr⟩
  cases res with
  | error e => simp [ragQueryToolRun, h]
  | ok result => simp [ragQueryToolRun, h]

/-- Every tool execution returns a tool message carrying a textual result,
for every environment and argument. -/
theorem execTool_ok (tenv : ToolEnv) (config : InvokeConfig) (a : ToolArgs) :
    ∃ s tr, execTool tenv config a = (.ok (toolMsg (toolName a) s), tr) := by
  cases a with
  | email toAddr subject text =>
    obtain ⟨s, hs⟩ := emailToolRun_isOk tenv toAddr subject text
    exact ⟨s, [], by simp [execTool, toolName, hs, exceptMap_ok]⟩
  | calendarEvent input =>
    obtain ⟨s, hs⟩ := calendarEventToolRun_isOk tenv input
    exact ⟨s, [], by simp [execTool, toolName, hs, exceptMap_ok]⟩
  | eventsRange st et =>
    obtain ⟨s, hs⟩ := getEventsToolRun_isOk tenv st et
    exact ⟨s, [], by simp [execTool, toolName, hs, exceptMap_ok]⟩
  | ragQuery q =>
    obtain ⟨s, hs⟩ := ragQueryToolRun_isOk tenv.rag config q
    exact ⟨s, (ragQueryToolRun tenv.rag config q).2,
      by simp [execTool, toolName, hs, exceptMap_ok]⟩

/-- The tools node never fails: executing any list of tool requests yields a
list of tool messages. -/
theorem runToolCalls_ok (tenv : ToolEnv) (config : InvokeConfig) (tcs : List ToolArgs) :
    ∃ ms tr, runToolCalls tenv config tcs = (.ok ms, tr) := by
  induction tcs with
  | nil => exact ⟨[], [], rfl⟩
  | cons a rest ih =>
    obtain ⟨s, tr1, h1⟩ := execTool_ok tenv config a
    obtain ⟨ms, tr2, h2⟩ := ih
    exact ⟨toolMsg (toolName a) s :: ms, tr1 ++ tr2, by simp [runToolCalls, h1, h2]⟩

/-- Shape of the tools node on a single request. -/
theorem runToolCalls_single (tenv : ToolEnv) (config : InvokeConfig) (a : ToolArgs) :
    ∃ s tr, runToolCalls tenv config [a] = (.ok [toolMsg (toolName a) s], tr) := by
  obtain ⟨s, tr1, h1⟩ := execTool_ok tenv config a
  exact ⟨s, tr1, by simp [runToolCalls, h1]⟩

/-- Shape of the tools node on the stub request, whose trace is empty. -/
theorem runToolCalls_alwaysToolArg (tenv : ToolEnv) (config : InvokeConfig) :
    ∃ s, runToolCalls tenv config [alwaysToolArg] = (.ok [toolMsg "sendEmail" s], []) := by
  obtain ⟨s, hs⟩ := emailToolRun_isOk tenv "user@example.com" "subject" "body"
  exact ⟨s, by simp [runToolCalls, execTool, alwaysToolArg, hs, exceptMap_ok, toolName]⟩

/-- Unfolding of the loop when the model finalizes. -/
theorem loopFrom_final (llm : LlmFn) (tenv : ToolEnv) (config : InvokeConfig)
    (fuel : Nat) (msgs : List ChatMsg) (out : ChatMsg)
    (h : llm msgs = .ok out) (he : out.tool_calls.isEmpty = true) :
    loopFrom llm tenv config (fuel + 1) msgs =
      { result := .ok (msgs ++ [out]), ragNamespaces := [], modelCalls := 1, steps := 1 } := by
  simp [loopFrom, h, he]

/-- Unfolding of the loop over one full model-plus-tools round. -/
theorem loopFrom_tools (llm : LlmFn) (tenv : ToolEnv) (config : InvokeConfig)
    (fuel : Nat) (msgs : List ChatMsg) (out : ChatMsg) (results : List ChatMsg)
    (tr : List String)
    (h : llm msgs = .ok out) (hne : out.tool_calls.isEmpty = false)
    (ht : runToolCalls tenv config out.tool_calls = (.ok results, tr)) :
    loopFrom llm tenv config (fuel + 2) msgs =
      { result := (loopFrom llm tenv config fuel (msgs ++ [out] ++ results)).result
        ragNamespaces :=
          tr ++ (loopFrom llm tenv config fuel (msgs ++ [out] ++ results)).ragNamespaces
        modelCalls := 1 + (loopFrom llm tenv config fuel (msgs ++ [out] ++ results)).modelCalls
        steps := 2 + (loopFrom llm tenv config fuel (msgs ++ [out] ++ results)).steps } := by
  show loopFrom llm tenv config ((fuel + 1) + 1) msgs = _
  simp [loopFrom, h, hne, ht]

/-- The loop never makes more model calls than its fuel. -/
theorem loopFrom_modelCalls_le (llm : LlmFn) (tenv : ToolEnv) (config : InvokeConfig)
    (fuel : Nat) : ∀ msgs, (loopFrom llm tenv config fuel msgs).modelCalls ≤ fuel := by
  induction fuel using Nat.strong_induction_on with
  | _ fuel ih =>
    intro msgs
    cases fuel with
    | zero => simp [loopFrom]
    | succ f =>
      cases h : llm msgs with
      | error e => simp [loopFrom, h]
      | ok out =>
        by_cases he : out.tool_calls.isEmpty
        · simp [loopFrom, h, he]
        · cases f with
          | zero => simp [loopFrom, h, he]
          | succ f2 =>
            rcases ht : runToolCalls tenv config out.tool_calls with ⟨res, tr⟩
            cases res with
            | error e2 => simp [loopFrom, h, he, ht]
            | ok results =>
              have hsub := ih f2 (by omega) (msgs ++ out :: results)
              simp [loopFrom, h, he, ht]
              omega

/-- Behavior of the loop under the stub model that always requests a tool:
every two units of fuel spend one model call and two steps, and the loop
ends in the recursion-limit error. -/
theorem loopFrom_alwaysTool (tenv : ToolEnv) (k : Nat) :
    ∀ msgs, loopFrom alwaysTool tenv runAgentConfig (2 * k) msgs =
      { result := .error .recursionLimit, ragNamespaces := [], modelCalls := k,
        steps := 2 * k } := by
  induction k with
  | zero => intro msgs; simp [loopFrom]
  | succ k ih =>
    intro msgs
    obtain ⟨s, h1⟩ := runToolCalls_alwaysToolArg tenv runAgentConfig
    have h2 : 2 * (k + 1) = (2 * k) + 2 := by omega
    rw [h2]
    rw [loopFrom_tools alwaysTool tenv runAgentConfig (2 * k) msgs _ _ _ rfl rfl h1]
    rw [ih]
    simp
    omega

/-- Every namespace that generateRAGResponse queries is the explicit
namespace argument or, absent one, user-{id} of the userId argument. -/
theorem generateRAGResponse_trace (env : RagEnv) (uid : Nat) (q : String) (k : Nat)
    (nsArg : Option String) :
    ∀ ns ∈ (generateRAGResponse env uid q k nsArg).2,
      ns = nsArg.getD ("user-" ++ toString uid) := by
  intro ns hns
  simp only [generateRAGResponse] at hns
  repeat' split at hns
  all_goals simp_all

/-- Every namespace queried during one tool execution under the runAgent
configuration is user-1: the configuration carries no configurable, so the
queryDocuments tool falls back to userId 1. -/
theorem execTool_trace_user1 (tenv : ToolEnv) (a : ToolArgs) :
    ∀ ns ∈ (execTool tenv runAgentConfig a).2, ns = "user-1" := by
  cases a with
  | email toAddr subject text => intro ns hns; simp [execTool] at hns
  | calendarEvent input => intro ns hns; simp [execTool] at hns
  | eventsRange st et => intro ns hns; simp [execTool] at hns
  | ragQuery q =>
    intro ns hns
    have he : (execTool tenv runAgentConfig (ToolArgs.ragQuery q)).2 =
        (generateRAGResponse tenv.rag 1 q 5 none).2 := by
      show (ragQueryToolRun tenv.rag runAgentConfig q).2 = _
      rw [ragQueryToolRun_trace]
      rfl
    rw [he] at hns
    have h2 := generateRAGResponse_trace tenv.rag 1 q 5 none ns hns
    rw [h2]
    rfl

/-- Every namespace queried by the tools node under the runAgent
configuration is user-1. -/
theorem runToolCalls_trace_user1 (tenv : ToolEnv) (tcs : List ToolArgs) :
    ∀ ns ∈ (runToolCalls tenv runAgentConfig tcs).2, ns = "user-1" := by
  induction tcs with
  | nil => intro ns hns; simp [runToolCalls] at hns
  | cons a rest ih =>
    intro ns hns
    have ha := execTool_trace_user1 tenv a
    rcases h1 : execTool tenv runAgentConfig a with ⟨r1, tr1⟩
    rw [h1] at ha
    cases r1 with
    | error e =>
      simp [runToolCalls, h1] at hns
      exact ha ns (by simpa using hns)
    | ok m =>
      rcases h2 : runToolCalls tenv runAgentConfig rest with ⟨r2, tr2⟩
      have hb : ∀ x ∈ tr2, x = "user-1" := by
        intro x hx
        exact ih x (by rw [h2]; simpa using hx)
      cases r2 with
      | error e2 =>
        simp [runToolCalls, h1, h2] at hns
        rcases hns with hl | hr
        · exact ha ns (by simpa using hl)
        · exact hb ns hr
      | ok ms =>
        simp [runToolCalls, h1, h2] at hns
        rcases hns with hl | hr
        · exact ha ns (by simpa using hl)
        · exact hb ns hr

/-- Every namespace queried during a whole loop run under the runAgent
configuration is user-1. -/
theorem loopFrom_trace_user1 (llm : LlmFn) (tenv : ToolEnv) (fuel : Nat) :
    ∀ msgs ns, ns ∈ (loopFrom llm tenv runAgentConfig fuel msgs).ragNamespaces →
      ns = "user-1" := by
  induction fuel using Nat.strong_induction_on with
  | _ fuel ih =>
    intro msgs ns hns
    cases fuel with
    | zero => simp [loopFrom] at hns
    | succ f =>
      cases h : llm msgs with
      | error e => simp [loopFrom, h] at hns
      | ok out =>
        by_cases he : out.tool_calls.isEmpty
        · simp [loopFrom, h, he] at hns
        · cases f with
          | zero => simp [loopFrom, h, he] at hns
          | succ f2 =>
            rcases ht : runToolCalls tenv runAgentConfig out.tool_calls with ⟨res, tr⟩
            have htr := runToolCalls_trace_user1 tenv out.tool_calls
            rw [ht] at htr
            cases res with
            | error e2 =>
              simp [loopFrom, h, he, ht] at hns
              exact htr ns (by simpa using hns)
            | ok results =>
              simp [loopFrom, h, he, ht] at hns
              rcases hns with hl | hr
              · exact htr ns (by simpa using hl)
              · exact ih f2 (by omega) (msgs ++ out :: results) ns hr

/-- runAgent returns the namespace trace of its single graph invocation in
every outcome. -/
theorem runAgent_trace (llm : LlmFn) (tenv : ToolEnv) (history : List ChatMsg)
    (userId : Nat) :
    (runAgent llm tenv history userId).2 = (runAgentLoop llm tenv history).ragNamespaces := by
  cases h : (runAgentLoop llm tenv history).result with
  | ok msgs => simp [runAgent, h]
  | error e => cases e <;> simp [runAgent, h]

/-- C1: the queryDocuments tool is never scoped to the calling user.  The
userId handed to runAgent is placed in the graph input, but the graph state
schema only carries messages, and the tool reads configurable.userId from
the invoke configuration, which runAgent leaves unset; the tool therefore
falls back to userId 1 and every nearest-neighbor search of every run
happens in namespace user-1.  Concretely, a run on behalf of user 2 whose
model requests queryDocuments searches user-1, not user-2. -/
theorem c1_rag_not_user_scoped :
    (∀ (llm : LlmFn) (tenv : ToolEnv) (history : List ChatMsg) (userId : Nat),
      ((runAgent llm tenv history userId).2.all (fun ns => ns == "user-1")) = true) ∧
    (runAgent (oneShotLlm (.ragQuery "q")) stubToolEnv [] 2).2 = ["user-1"] ∧
    "user-1" ≠ "user-2" := by
  refine ⟨?_, by rfl, by decide⟩
  intro llm tenv history userId
  rw [List.all_eq_true]
  intro ns hns
  rw [runAgent_trace] at hns
  have h := loopFrom_trace_user1 llm tenv 10 history ns
    (by simpa [runAgentLoop, runAgentConfig] using hns)
  simp [h]

/-- C2: the orchestrator loop is bounded by the recursion limit 10: it never
makes more than 10 model calls; when the limit is exceeded the caught
recursion-limit error becomes the fixed rephrase fallback answer instead of
an error to the caller; and under the stub model that always requests a
tool and never finalizes, the loop executes exactly the ceiling of 10
super-steps (5 model turns plus 5 tool turns), aborts with the
recursion-limit error, and runAgent returns the rephrase fallback. -/
theorem c2_iteration_ceiling (llm : LlmFn) (tenv : ToolEnv) (history : List ChatMsg)
    (userId : Nat) :
    (runAgentLoop llm tenv history).modelCalls ≤ 10 ∧
    ((runAgentLoop llm tenv history).result = .error .recursionLimit →
      runAgent llm tenv history userId =
        ({ role := .assistant, content := recursionFallbackMsg, tool_calls := [], name := none },
         (runAgentLoop llm tenv history).ragNamespaces)) ∧
    (runAgentLoop alwaysTool tenv history).steps = 10 ∧
    (runAgentLoop alwaysTool tenv history).result = .error .recursionLimit ∧
    (runAgent alwaysTool tenv history userId).1 =
      { role := .assistant, content := recursionFallbackMsg, tool_calls := [], name := none } := by
  have hstub : runAgentLoop alwaysTool tenv history =
      { result := .error .recursionLimit, ragNamespaces := [], modelCalls := 5, steps := 10 } := by
    have h := loopFrom_alwaysTool tenv 5 history
    simpa [runAgentLoop, runAgentConfig] using h
  refine ⟨loopFrom_modelCalls_le llm tenv runAgentConfig 10 history, ?_, ?_, ?_, ?_⟩
  · intro h
    simp [runAgent, h]
  · rw [hstub]
  · rw [hstub]
  · simp [runAgent, hstub]

/-- C2 witness: the theorem at the always-requesting stub and a concrete
tool environment, with the recursion-limit hypothesis discharged by
evaluation. -/
theorem c2_iteration_ceiling_witness :
    (runAgentLoop alwaysTool stubToolEnv []).modelCalls ≤ 10 ∧
    runAgent alwaysTool stubToolEnv [] 1 =
      ({ role := .assistant, content := recursionFallbackMsg, tool_calls := [], name := none },
       (runAgentLoop alwaysTool stubToolEnv []).ragNamespaces) := by
  have h := c2_iteration_ceiling alwaysTool stubToolEnv [] 1
  exact ⟨h.1, h.2.1 (by rfl)⟩

/-- C3: no tool ever throws past its boundary — for every environment,
including throwing services, and every argument, execution returns a
textual tool message — and the loop with a model that requests one tool
then finalizes reaches Done with the tool result incorporated into the
history, never propagating an exception. -/
theorem c3_tool_errors_contained :
    (∀ (tenv : ToolEnv) (config : InvokeConfig) (a : ToolArgs),
      ∃ s tr, execTool tenv config a = (.ok (toolMsg (toolName a) s), tr)) ∧
    (∀ (tenv : ToolEnv) (a : ToolArgs),
      ∃ s tr,
        runAgentLoop (oneShotLlm a) tenv [] =
          { result := .ok
              [{ role := .assistant, content := "", tool_calls := [a], name := none },
               toolMsg (toolName a) s,
               { role := .assistant, content := "done", tool_calls := [], name := none }],
            ragNamespaces := tr, modelCalls := 2, steps := 3 }) := by
  refine ⟨execTool_ok, ?_⟩
  intro tenv a
  obtain ⟨s, tr, h1⟩ := runToolCalls_single tenv runAgentConfig a
  refine ⟨s, tr, ?_⟩
  show loopFrom (oneShotLlm a) tenv runAgentConfig (runAgentConfig.recursionLimit.getD 25) [] = _
  have e10 : runAgentConfig.recursionLimit.getD 25 = 8 + 2 := rfl
  rw [e10]
  rw [loopFrom_tools (oneShotLlm a) tenv runAgentConfig 8 []
    { role := .assistant, content := "", tool_calls := [a], name := none }
    [toolMsg (toolName a) s] tr rfl rfl h1]
  rw [show (8 : Nat) = 7 + 1 from rfl]
  rw [loopFrom_final (oneShotLlm a) tenv runAgentConfig 7 _
    { role := .assistant, content := "done", tool_calls := [], name := none }
    (by simp [oneShotLlm, toolMsg]) rfl]
  simp

/-- Unfolding of the chunk loop when the window reaches the end of the
text: the loop emits the remaining characters and stops. -/
theorem chunkLoop_last (clean : List Char) (i : Nat) (h : i < clean.length)
    (hge : clean.length ≤ i + 1200) :
    chunkLoop clean i = [clean.drop i] := by
  unfold chunkLoop
  have hmin : min (i + 1200) clean.length = clean.length := Nat.min_eq_right hge
  rw [dif_pos h, if_pos hmin, hmin]
  rw [show clean.length - i = (clean.drop i).length from (List.length_drop i clean).symm,
    List.take_length]

/-- Unfolding of the chunk loop in the middle of the text: the loop emits a
full 1200-character window and restarts 200 characters before its end. -/
theorem chunkLoop_mid (clean : List Char) (i : Nat) (h : i + 1200 < clean.length) :
    chunkLoop clean i = ((clean.drop i).take 1200) :: chunkLoop clean (i + 1000) := by
  conv_lhs => rw [chunkLoop]
  have hi : i < clean.length := by omega
  have hmin : min (i + 1200) clean.length = i + 1200 := Nat.min_eq_left (by omega)
  rw [dif_pos hi, hmin, if_neg (by omega)]
  have h1 : i + 1200 - i = 1200 := by omega
  have h2 : max 0 (i + 1200 - 200) = i + 1000 := by omega
  rw [h1, h2]

/-- The first window of the chunk loop slices from the current start to the
window end. -/
theorem chunkLoop_head (clean : List Char) (j : Nat) (h : j < clean.length) :
    (chunkLoop clean j).head? =
      some ((clean.drop j).take (min (j + 1200) clean.length - j)) := by
  by_cases hge : clean.length ≤ j + 1200
  · rw [chunkLoop_last clean j h hge]
    have hmin : min (j + 1200) clean.length = clean.length := Nat.min_eq_right hge
    rw [hmin]
    rw [show clean.length - j = (clean.drop j).length from (List.length_drop j clean).symm,
      List.take_length]
    rfl
  · push_neg at hge
    rw [chunkLoop_mid clean j hge]
    have hmin : min (j + 1200) clean.length = j + 1200 := Nat.min_eq_left (by omega)
    rw [hmin]
    have h1 : j + 1200 - j = 1200 := by omega
    rw [h1]
    rfl

/-- Invariant of the chunk loop from any start inside the text: it emits at
least one window, every window but the last is exactly 1200 characters,
consecutive windows satisfy the 200-character overlap relation, and the
overlap-aware join of the windows is exactly the rest of the text. -/
theorem chunkLoop_spec (clean : List Char) (i : Nat) (h : i < clean.length) :
    chunkLoop clean i ≠ [] ∧
    (∀ w ∈ (chunkLoop clean i).dropLast, w.length = 1200) ∧
    List.Chain' (fun w w2 => w2.take 200 = w.drop (w.length - 200)) (chunkLoop clean i) ∧
    ovJoin (chunkLoop clean i) = clean.drop i := by
  by_cases hge : clean.length ≤ i + 1200
  · rw [chunkLoop_last clean i h hge]
    exact ⟨by simp, by simp, by simp, by simp [ovJoin]⟩
  · push_neg at hge
    rw [chunkLoop_mid clean i hge]
    obtain ⟨hne, hlen, hchain, hcov⟩ := chunkLoop_spec clean (i + 1000) (by omega)
    have hw1len : ((clean.drop i).take 1200).length = 1200 := by
      rw [List.length_take, List.length_drop]
      omega
    refine ⟨by simp, ?_, ?_, ?_⟩
    · intro w hw
      revert hw
      rcases hcl : chunkLoop clean (i + 1000) with _ | ⟨w2, ws2⟩
      · exact absurd hcl hne
      · intro hw
        simp only [List.dropLast, List.mem_cons] at hw
        rcases hw with rfl | hw
        · exact hw1len
        · refine hlen w ?_
          rw [hcl]
          simpa [List.dropLast] using hw
    · rw [List.chain'_cons']
      refine ⟨?_, hchain⟩
      intro y hy
      rw [chunkLoop_head clean (i + 1000) (by omega)] at hy
      simp only [Option.mem_def, Option.some.injEq] at hy
      subst hy
      rw [hw1len]
      have h12 : (1200 : Nat) - 200 = 1000 := by omega
      rw [h12]
      have hk : 200 ≤ min (i + 1000 + 1200) clean.length - (i + 1000) := by
        rcases Nat.le_total (i + 1000 + 1200) clean.length with hle | hle
        · rw [Nat.min_eq_left hle]; omega
        · rw [Nat.min_eq_right hle]; omega
      rw [List.take_take, Nat.min_eq_left hk]
      rw [List.drop_take, List.drop_drop]
    · rcases hcl : chunkLoop clean (i + 1000) with _ | ⟨w2, ws2⟩
      · exact absurd hcl hne
      · rw [hcl] at hcov
        simp only [ovJoin]
        rw [hcov]
        rw [List.take_take, Nat.min_eq_left (by omega : (1000 : Nat) ≤ 1200)]
        rw [show clean.drop (i + 1000) = (clean.drop i).drop 1000 from by
          rw [List.drop_drop]]
        exact List.take_append_drop 1000 (clean.drop i)
termination_by clean.length - i
decreasing_by omega

/-- C7: the chunker splits the whitespace-normalized text into overlapping
fixed windows and terminates on every input (chunkLoop is total by its
decreasing measure): blank text gives no chunks, otherwise at least one;
every window but possibly the last is exactly 1200 characters; each next
window starts 200 characters before the previous window ends (its first 200
characters are the previous window last 200); and joining the windows while
removing the 200-character overlaps reproduces the whole cleaned text, so
the windows jointly cover it and the loop stops exactly when a window
reaches the end. -/
theorem c7_chunk_windows (text : String) :
    chunkText text = (chunkChars text).map (fun w => String.mk w) ∧
    (cleanChars text = [] → chunkChars text = []) ∧
    (cleanChars text ≠ [] → chunkChars text ≠ []) ∧
    (∀ w ∈ (chunkChars text).dropLast, w.length = 1200) ∧
    List.Chain' (fun w w2 => w2.take 200 = w.drop (w.length - 200)) (chunkChars text) ∧
    ovJoin (chunkChars text) = cleanChars text := by
  by_cases h : cleanChars text = []
  · refine ⟨rfl, fun _ => by simp [chunkChars, h], fun hne => absurd h hne, ?_, ?_, ?_⟩
    · simp [chunkChars, h]
    · simp [chunkChars, h]
    · simp [chunkChars, h, ovJoin]
  · have hlen : 0 < (cleanChars text).length := List.length_pos.mpr h
    obtain ⟨hne, hl, hc, hcov⟩ := chunkLoop_spec (cleanChars text) 0 hlen
    refine ⟨rfl, fun he => absurd he h, fun _ => ?_, ?_, ?_, ?_⟩
    · simpa [chunkChars, h] using hne
    · intro w hw
      exact hl w (by simpa [chunkChars, h] using hw)
    · simpa [chunkChars, h] using hc
    · simpa [chunkChars, h] using hcov

/-- C7 witness: the theorem evaluated at a concrete text and the blank-text
case discharged at the empty text. -/
theorem c7_chunk_windows_witness :
    ovJoin (chunkChars "ab cd") = cleanChars "ab cd" ∧ chunkChars "" = [] := by
  exact ⟨(c7_chunk_windows "ab cd").2.2.2.2.2, (c7_chunk_windows "").2.1 (by decide)⟩

end ChatApp
